import Mathlib

/-!
Verification development for the hybrid lexical-semantic retrieval engine of
the AgentTasmania repository.  The definitions below are a shallow embedding
of `src/database_service/src/services/bm25_encoder.py` (class `BM25Encoder`)
and `src/database_service/src/services/vector_services.py` (class
`VectorServices`).  Python floats are idealised as real numbers, Python dicts
as insertion-ordered association lists, and every network / store interaction
is an explicit parameter (an `Option` or `Except` value standing for the reply
or the raised exception).
-/

/-! ## Tokenizer

`BM25Encoder.tokenize` is `re.findall(r'\b\w+\b', text.lower())`: the list of
maximal runs of word characters (alphanumerics and underscore) of the
lower-cased text.  The embedding lowers per character and groups maximal runs;
it covers the ASCII fragment, which is all the claims use. -/

def isWordChar (c : Char) : Bool := c.isAlphanum || c == '_'

def tokenizeAux : List Char → List Char → List (List Char)
  | [], cur => if cur = [] then [] else [cur.reverse]
  | c :: rest, cur =>
      if isWordChar c then tokenizeAux rest (c :: cur)
      else if cur = [] then tokenizeAux rest []
      else cur.reverse :: tokenizeAux rest []

/-- `BM25Encoder.tokenize`. -/
def tokenize (text : String) : List String :=
  (tokenizeAux (text.toList.map Char.toLower) []).map List.asString

/-- The distinct elements of a token list in first-occurrence order.  Models
Python's `set(tokens)` (and the key set of `Counter(tokens)`); CPython's set
iteration order is unspecified, and no claim depends on the order, only on
the underlying set. -/
def uniqueTokens (ts : List String) : List String :=
  ts.foldl (fun acc t => if t ∈ acc then acc else acc ++ [t]) []

/-! ## Python dicts as insertion-ordered association lists -/

/-- `d[k] = v` on a Python dict: update in place if the key is present,
append at the end otherwise. -/
def setKey {α : Type} : List (String × α) → String → α → List (String × α)
  | [], k, v => [(k, v)]
  | (k', v') :: rest, k, v =>
      if k' = k then (k, v) :: rest else (k', v') :: setKey rest k v

/-- `d[k] = d.get(k, 0) + 1` on a Python dict of counters. -/
def bump (l : List (String × ℕ)) (k : String) : List (String × ℕ) :=
  setKey l k (((l.lookup k).getD 0) + 1)

/-! ## BM25Encoder state

Fields mirror the attributes set in `BM25Encoder.__init__`.  `k1`, `b` and
`avgdl` are exact rationals (the Python values `1.2`, `0.75` and a ratio of
two integers); the stored IDF values are reals (`math.log`). -/

structure BM25State where
  k1 : ℚ
  b : ℚ
  vocabulary : List (String × ℕ)
  docFreqs : List (String × ℕ)
  idf : List (String × ℝ)
  corpusSize : ℕ
  avgdl : ℚ
  ready : Bool

/-- `BM25Encoder()` with the default constructor arguments. -/
def initBM25 : BM25State :=
  { k1 := 1.2, b := 0.75, vocabulary := [], docFreqs := [], idf := [],
    corpusSize := 0, avgdl := 0, ready := false }

/-- The IDF value stored per term:
`math.log((self.corpus_size - freq + 0.5) / (freq + 0.5))`. -/
noncomputable def idfValue (corpusSize freq : ℕ) : ℝ :=
  Real.log (((corpusSize : ℝ) - (freq : ℝ) + 1/2) / ((freq : ℝ) + 1/2))

/-- The `doc_freqs` dict built by the first loop of
`build_corpus_statistics`: for each document, the document-frequency of
every distinct token is incremented once. -/
def docFreqsOf (documents : List String) : List (String × ℕ) :=
  documents.foldl (fun df doc => (uniqueTokens (tokenize doc)).foldl bump df) []

/-- One iteration of the second loop of `build_corpus_statistics`:
`self.idf[token] = math.log((self.corpus_size - freq + 0.5) / (freq + 0.5))`
and `if token not in self.vocabulary: self.vocabulary[token] = len(self.vocabulary)`. -/
noncomputable def idfVocabStep (corpusSize : ℕ)
    (p : List (String × ℝ) × List (String × ℕ)) (e : String × ℕ) :
    List (String × ℝ) × List (String × ℕ) :=
  (setKey p.1 e.1 (idfValue corpusSize e.2),
   if (p.2.lookup e.1).isSome then p.2 else p.2 ++ [(e.1, p.2.length)])

/-- `BM25Encoder.build_corpus_statistics(documents)`.

Faithful to the source: `self.doc_freqs` is replaced by the freshly built
dict, `self.avgdl` uses the guarded division (`0` when the corpus is empty),
while `self.idf` and `self.vocabulary` are only updated in place / appended
to (the source never clears them), and `self.corpus_stats_ready` is set to
`True` unconditionally at the end (nothing in the body can raise). -/
noncomputable def buildCorpusStatistics (documents : List String)
    (st : BM25State) : BM25State :=
  let corpusSize := documents.length
  let docFreqs := docFreqsOf documents
  let totalDocLength := (documents.map fun d => (tokenize d).length).sum
  let avgdl : ℚ := if corpusSize > 0 then (totalDocLength : ℚ) / (corpusSize : ℚ) else 0
  let idfVocab := docFreqs.foldl (idfVocabStep corpusSize) (st.idf, st.vocabulary)
  { st with corpusSize := corpusSize, docFreqs := docFreqs, avgdl := avgdl,
            idf := idfVocab.1, vocabulary := idfVocab.2, ready := true }

/-- The per-term score of `BM25Encoder.encode`:
`numerator = idf * tf * (k1 + 1)`,
`denominator = tf + k1 * (1 - b + b * doc_len / avgdl)`,
`score = numerator / denominator`. -/
noncomputable def bm25Score (st : BM25State) (idfv : ℝ) (tf docLen : ℕ) : ℝ :=
  idfv * (tf : ℝ) * ((st.k1 : ℝ) + 1) /
    ((tf : ℝ) + (st.k1 : ℝ) *
      (1 - (st.b : ℝ) + (st.b : ℝ) * (docLen : ℝ) / ((st.avgdl : ℚ) : ℝ)))

/-- `BM25Encoder.encode(text, doc_length)`.

The second `if` models the `ZeroDivisionError` raised by
`doc_len / self.avgdl` when `avgdl == 0` and some query token passes the
`token in self.idf and token in self.vocabulary` test; the function's
`except` handler turns that exception into the empty dict. -/
noncomputable def encode (st : BM25State) (text : String)
    (docLength : Option ℕ) : List (ℕ × ℝ) :=
  if st.ready = false then []
  else
    let tokens := tokenize text
    let terms := uniqueTokens tokens
    let docLen := docLength.getD tokens.length
    if st.avgdl = 0 ∧ (terms.any fun t =>
        (st.idf.lookup t).isSome && (st.vocabulary.lookup t).isSome) = true then []
    else
      terms.foldl
        (fun sv t =>
          match st.idf.lookup t, st.vocabulary.lookup t with
          | some idfv, some tIdx =>
              let score : ℝ := bm25Score st idfv (tokens.count t) docLen
              if 0 < score then sv ++ [(tIdx, score)] else sv
          | _, _ => sv)
        []

/-! ## VectorServices (search orchestrator)

`vector_services.py` talks to two external collaborators: the embedding
service (`get_embedding`, an HTTP call) and the Qdrant store (`scroll`,
`query_points`, `search_similar`).  Each interaction is modelled by a field
of `Env`: `none` / `.error ()` stands for the call raising an exception (the
Python code catches every exception at the corresponding `except`). -/

/-- A point stored in the Qdrant collection; `content` is `payload['content']`
when that key is present. -/
structure StorePoint where
  id : ℕ
  content : Option String

/-- A scored point as returned by a store query. -/
structure ScoredPoint where
  id : ℕ
  score : ℝ

/-- The dict returned by `VectorServices.hybrid_search` and its helpers:
`{"results": ..., "total_found": ..., "search_type": ...}`. -/
structure SearchOutcome where
  results : List ScoredPoint
  totalFound : ℕ
  searchType : String

/-- The external world a single `hybrid_search` call runs against. -/
structure Env where
  /-- Reply of `get_embedding`; `none` models an exception or timeout
  (caught inside `get_embedding`, which then returns `None`). -/
  embedResult : Option (List ℝ)
  /-- The points of the collection as returned by `client.scroll`;
  `none` models `scroll` raising. -/
  storePoints : Option (List StorePoint)
  /-- Reply of `client.query_points` (the fused RRF query);
  `.error ()` models the call raising. -/
  hybridQueryResult : Except Unit (List ScoredPoint)
  /-- Raw behaviour of the underlying `client.search` call made by
  `QdrantConfig.search_similar` (dense-only query); `.error ()` models that
  underlying call raising.  `search_similar` itself catches the exception
  and returns `[]` (`qdrant_client.py:269-271`), so its callers observe an
  empty list, never an exception — see `searchSimilar`. -/
  denseQueryResult : Except Unit (List ScoredPoint)

/-- Mutable state of a `VectorServices` instance: its `bm25_encoder`
and the `_corpus_initialized` flag. -/
structure VSState where
  bm25 : BM25State
  corpusInitialized : Bool

/-- A fresh `VectorServices(...)` instance. -/
def initVS : VSState := { bm25 := initBM25, corpusInitialized := false }

/-- The store calls a search issues, in order. -/
inductive StoreCall
  | scroll
  | fusedQuery
  | denseQuery
deriving DecidableEq, Repr

/-- `VectorServices._fetch_corpus_documents`: one `scroll` page with
`limit=1000` (there is no pagination loop; `next_page_offset` is dropped),
keeping `payload['content']` of the points that have it.  The `except`
returns `[]`. -/
def fetchCorpusDocuments (env : Env) : List String :=
  match env.storePoints with
  | none => []
  | some pts => (pts.take 1000).filterMap (fun p => p.content)

/-- `VectorServices._initialize_bm25_corpus`: check the unsynchronized flag,
fetch the corpus, build statistics only when some documents came back, and
set the flag.  The surrounding `except` only logs. -/
noncomputable def initializeBM25Corpus (env : Env) (vs : VSState) :
    VSState × List StoreCall :=
  if vs.corpusInitialized then (vs, [])
  else
    let documents := fetchCorpusDocuments env
    if documents ≠ [] then
      ({ bm25 := buildCorpusStatistics documents vs.bm25,
         corpusInitialized := true }, [StoreCall.scroll])
    else (vs, [StoreCall.scroll])

/-- The error outcome `{"results": [], "total_found": 0, "search_type": "error"}`. -/
def errorOutcome : SearchOutcome :=
  { results := [], totalFound := 0, searchType := "error" }

/-- `QdrantConfig.search_similar` (`qdrant_client.py:230-271`): one dense
nearest-neighbor query with `limit`, `score_threshold` and filters applied
by the store; its own `except Exception` catches any store failure and
returns `[]`. -/
def searchSimilar (env : Env) : List ScoredPoint :=
  match env.denseQueryResult with
  | Except.ok rs => rs
  | Except.error _ => []

/-- `VectorServices._dense_only_search`: queries the dense field through
`qdrant_config.search_similar` and formats the results as returned, tagged
`"dense_only"`.  Because `search_similar` already swallows store exceptions
(returning `[]`), the orchestrator-level `except`
(`vector_services.py:302-304`) could only fire if result formatting raised,
which it cannot — the payload round-trip is total — so a store failure
surfaces as a dense-only outcome with an empty result list, never as the
error outcome. -/
def denseOnlySearch (env : Env) : SearchOutcome × List StoreCall :=
  ({ results := searchSimilar env, totalFound := (searchSimilar env).length,
     searchType := "dense_only" }, [StoreCall.denseQuery])

/-- `VectorServices._qdrant_hybrid_search`: one fused (RRF) query, results
post-filtered by `point.score >= score_threshold`; on an exception the
`except` falls back to `_dense_only_search`. -/
noncomputable def qdrantHybridSearch (env : Env) (scoreThreshold : ℝ) :
    SearchOutcome × List StoreCall :=
  match env.hybridQueryResult with
  | Except.ok pts =>
      let results := pts.filter (fun p => scoreThreshold ≤ p.score)
      ({ results := results, totalFound := results.length,
         searchType := "hybrid" }, [StoreCall.fusedQuery])
  | Except.error _ =>
      let d := denseOnlySearch env
      (d.1, StoreCall.fusedQuery :: d.2)

/-- `VectorServices.hybrid_search`: get the dense embedding (empty or missing
embedding → error outcome, mirroring `if not dense_vector`), lazily
initialize the BM25 corpus, then choose the hybrid or the dense-only path.
Returns the outcome, the updated service state, and the store calls issued.
The Python locals (`dense_vector`, the state after `_initialize_bm25_corpus`,
`sparse_vector`) are inlined; `limit` only shapes the store requests, whose
replies are part of `Env`. -/
noncomputable def hybridSearch (env : Env) (vs : VSState) (queryText : String)
    (_limit : ℕ) (scoreThreshold : ℝ) :
    SearchOutcome × VSState × List StoreCall :=
  match env.embedResult with
  | none => (errorOutcome, vs, [])
  | some denseVector =>
    if denseVector = [] then (errorOutcome, vs, [])
    else
      if (initializeBM25Corpus env vs).1.corpusInitialized = true ∧
          (initializeBM25Corpus env vs).1.bm25.ready = true then
        if encode (initializeBM25Corpus env vs).1.bm25 queryText none ≠ [] then
          ((qdrantHybridSearch env scoreThreshold).1,
           (initializeBM25Corpus env vs).1,
           (initializeBM25Corpus env vs).2 ++ (qdrantHybridSearch env scoreThreshold).2)
        else
          ((denseOnlySearch env).1, (initializeBM25Corpus env vs).1,
           (initializeBM25Corpus env vs).2 ++ (denseOnlySearch env).2)
      else
        ((denseOnlySearch env).1, (initializeBM25Corpus env vs).1,
         (initializeBM25Corpus env vs).2 ++ (denseOnlySearch env).2)

/-! ## Concurrency model of the lazy initialization (§5 of the spec)

`_initialize_bm25_corpus` protects the build with a plain boolean attribute:
it reads `self._corpus_initialized` first and sets it only after the
fetch-then-build completed; the fetch is a blocking network call, so under
Python threading another caller can be scheduled between the read and the
write.  Each caller is modelled as a two-step program: step `0` is the flag
check, step `1` is the fetch-then-build (which sets the flag when documents
came back).  A schedule is the list of which of the two callers performs its
next step. -/

structure InitShared where
  flag : Bool
  builds : ℕ
deriving DecidableEq, Repr

/-- One step of a caller of `_initialize_bm25_corpus`: program counter `0` is
`if self._corpus_initialized: return`, program counter `1` is
`documents = self._fetch_corpus_documents(...)` followed by the build and
`self._corpus_initialized = True` (executed only when `documents` is
non-empty), and `2` means the call returned. -/
def initStep (documentsNonempty : Bool) (s : InitShared) (pc : ℕ) :
    InitShared × ℕ :=
  match pc with
  | 0 => if s.flag then (s, 2) else (s, 1)
  | 1 => if documentsNonempty then
           ({ flag := true, builds := s.builds + 1 }, 2)
         else (s, 2)
  | _ => (s, 2)

/-- Run a schedule over two concurrent callers of
`_initialize_bm25_corpus`: `true` schedules the first caller, `false` the
second. -/
def runInitSchedule (documentsNonempty : Bool) :
    List Bool → InitShared × ℕ × ℕ → InitShared × ℕ × ℕ
  | [], st => st
  | c :: rest, (s, pc1, pc2) =>
      if c then
        let r := initStep documentsNonempty s pc1
        runInitSchedule documentsNonempty rest (r.1, r.2, pc2)
      else
        let r := initStep documentsNonempty s pc2
        runInitSchedule documentsNonempty rest (r.1, pc1, r.2)

/-! ## Concrete corpus states and environments used by the analyses

`corpusA` is the encoder after building on the three-document corpus
`["x a", "a", "a"]` (term `x` has `df = 1 < N/2`, hence positive IDF);
`corpusAB` rebuilds the same encoder on the single-document corpus `["b"]`;
`corpusAE` rebuilds it on `["", ""]`, a corpus of entirely empty documents. -/

noncomputable def corpusA : BM25State :=
  buildCorpusStatistics ["x a", "a", "a"] initBM25

noncomputable def corpusAB : BM25State := buildCorpusStatistics ["b"] corpusA

noncomputable def corpusAE : BM25State := buildCorpusStatistics ["", ""] corpusA

/-- A `VectorServices` state whose encoder is `corpusA` and whose corpus is
marked initialized. -/
noncomputable def vsA : VSState := { bm25 := corpusA, corpusInitialized := true }

/-- An environment where the embedding succeeds, the fused store query
raises and the dense store query succeeds with one scored point. -/
noncomputable def envHR : Env :=
  { embedResult := some [1], storePoints := some [],
    hybridQueryResult := Except.error (),
    denseQueryResult := Except.ok [⟨1, 1⟩] }

/-- An environment where the embedding succeeds, the store scroll raises
(so the corpus is never initialized), the fused query raises and the dense
query succeeds with an empty reply. -/
noncomputable def envB : Env :=
  { embedResult := some [1], storePoints := none,
    hybridQueryResult := Except.error (), denseQueryResult := Except.ok [] }

/-- An environment where the embedding succeeds, the corpus cannot be
initialized and the underlying dense store call raises (a failure that
`search_similar` swallows, returning `[]` to its caller). -/
noncomputable def envBFail : Env :=
  { embedResult := some [1], storePoints := none,
    hybridQueryResult := Except.error (), denseQueryResult := Except.error () }

/-- A store holding 1001 points, each carrying a `content` payload. -/
def bigStore : List StorePoint :=
  List.replicate 1000 ⟨0, some "a"⟩ ++ [⟨1000, some "b"⟩]

/-- The environment whose store scroll returns `bigStore`. -/
def envBig : Env :=
  { embedResult := none, storePoints := some bigStore,
    hybridQueryResult := Except.error (), denseQueryResult := Except.error () }

/-! ## Generic association-list and fold lemmas -/

lemma lookup_cons_self {α : Type} (k : String) (v : α) (l : List (String × α)) :
    ((k, v) :: l).lookup k = some v := by
  simp [List.lookup]

lemma lookup_cons_ne {α : Type} {k t : String} (v : α) (l : List (String × α))
    (h : t ≠ k) : ((k, v) :: l).lookup t = l.lookup t := by
  simp [List.lookup, beq_eq_false_iff_ne.mpr h]

lemma lookup_append_left {α : Type} {l₁ : List (String × α)} {t : String}
    {v : α} (l₂ : List (String × α)) (h : l₁.lookup t = some v) :
    (l₁ ++ l₂).lookup t = some v := by
  induction l₁ with
  | nil => simp [List.lookup] at h
  | cons p rest ih =>
      rcases p with ⟨k, w⟩
      by_cases hk : t = k
      · subst hk
        simp [List.lookup] at h ⊢
        exact h
      · rw [lookup_cons_ne _ _ hk] at h
        rw [List.cons_append, lookup_cons_ne _ _ hk]
        exact ih h

lemma lookup_append_none {α : Type} {l₁ : List (String × α)} {t : String}
    (l₂ : List (String × α)) (h : l₁.lookup t = none) :
    (l₁ ++ l₂).lookup t = l₂.lookup t := by
  induction l₁ with
  | nil => simp
  | cons p rest ih =>
      rcases p with ⟨k, w⟩
      by_cases hk : t = k
      · subst hk; simp [List.lookup] at h
      · rw [lookup_cons_ne _ _ hk] at h
        rw [List.cons_append, lookup_cons_ne _ _ hk]
        exact ih h

lemma setKey_lookup_self {α : Type} (l : List (String × α)) (k : String) (v : α) :
    (setKey l k v).lookup k = some v := by
  induction l with
  | nil => simp [setKey, List.lookup]
  | cons p rest ih =>
      rcases p with ⟨k', v'⟩
      rw [setKey]
      by_cases hk : k' = k
      · subst hk; simp [lookup_cons_self]
      · rw [if_neg hk, lookup_cons_ne _ _ (Ne.symm hk)]
        exact ih

lemma setKey_lookup_ne {α : Type} (l : List (String × α)) {k t : String}
    (v : α) (h : t ≠ k) : (setKey l k v).lookup t = l.lookup t := by
  induction l with
  | nil => simp [setKey, List.lookup, beq_eq_false_iff_ne.mpr h]
  | cons p rest ih =>
      rcases p with ⟨k', v'⟩
      rw [setKey]
      by_cases hk : k' = k
      · subst hk
        rw [if_pos rfl, lookup_cons_ne _ _ h, lookup_cons_ne _ _ h]
      · rw [if_neg hk]
        by_cases ht : t = k'
        · subst ht; simp [lookup_cons_self]
        · rw [lookup_cons_ne _ _ ht, lookup_cons_ne _ _ ht]
          exact ih

lemma setKey_absent {α : Type} {l : List (String × α)} {k : String} (v : α)
    (h : l.lookup k = none) : setKey l k v = l ++ [(k, v)] := by
  induction l with
  | nil => simp [setKey]
  | cons p rest ih =>
      rcases p with ⟨k', v'⟩
      by_cases hk : k' = k
      · subst hk; simp [List.lookup] at h
      · rw [lookup_cons_ne _ _ (Ne.symm hk)] at h
        rw [setKey, if_neg hk, List.cons_append, ih h]

lemma foldl_fix {α β : Type} (l : List α) (f : β → α → β) (b : β)
    (h : ∀ acc x, x ∈ l → f acc x = acc) : l.foldl f b = b := by
  induction l generalizing b with
  | nil => rfl
  | cons x rest ih =>
      rw [List.foldl_cons, h b x (List.mem_cons_self x rest)]
      exact ih b fun acc y hy => h acc y (List.mem_cons_of_mem x hy)

/-! ## Properties of `uniqueTokens` -/

lemma uniqueTokens_go_mem (ts : List String) :
    ∀ (acc : List String) (t : String),
      (t ∈ ts.foldl (fun acc t => if t ∈ acc then acc else acc ++ [t]) acc ↔
        t ∈ acc ∨ t ∈ ts) := by
  induction ts with
  | nil => simp
  | cons x rest ih =>
      intro acc t
      rw [List.foldl_cons]
      by_cases hx : x ∈ acc
      · rw [if_pos hx, ih]
        constructor
        · rintro (h | h)
          · exact Or.inl h
          · exact Or.inr (List.mem_cons_of_mem x h)
        · rintro (h | h)
          · exact Or.inl h
          · rcases List.mem_cons.mp h with h | h
            · exact Or.inl (h ▸ hx)
            · exact Or.inr h
      · rw [if_neg hx, ih]
        simp only [List.mem_append, List.mem_singleton, List.mem_cons]
        tauto

lemma mem_uniqueTokens (ts : List String) (t : String) :
    t ∈ uniqueTokens ts ↔ t ∈ ts := by
  rw [uniqueTokens, uniqueTokens_go_mem]
  simp

lemma uniqueTokens_go_nodup (ts : List String) :
    ∀ acc : List String, acc.Nodup →
      (ts.foldl (fun acc t => if t ∈ acc then acc else acc ++ [t]) acc).Nodup := by
  induction ts with
  | nil => intro acc h; exact h
  | cons x rest ih =>
      intro acc h
      rw [List.foldl_cons]
      by_cases hx : x ∈ acc
      · rw [if_pos hx]; exact ih acc h
      · rw [if_neg hx]
        refine ih _ ?_
        simp [List.nodup_append, h, hx]

lemma uniqueTokens_nodup (ts : List String) : (uniqueTokens ts).Nodup :=
  uniqueTokens_go_nodup ts [] List.nodup_nil

/-! ## Shape of the statistics built from a corpus -/

lemma lookup_append_single_ne {α : Type} (l : List (String × α)) {k t : String}
    (v : α) (h : t ≠ k) : (l ++ [(k, v)]).lookup t = l.lookup t := by
  cases hl : l.lookup t with
  | none =>
      rw [lookup_append_none _ hl]
      simp [List.lookup, beq_eq_false_iff_ne.mpr h]
  | some w => rw [lookup_append_left _ hl]

lemma foldl_bump_fresh :
    ∀ (us : List String) (acc : List (String × ℕ)), us.Nodup →
      (∀ t ∈ us, acc.lookup t = none) →
      us.foldl bump acc = acc ++ us.map (fun t => (t, 1)) := by
  intro us
  induction us with
  | nil => intro acc _ _; simp
  | cons t rest ih =>
      intro acc hnd hfresh
      have ht : acc.lookup t = none := hfresh t (List.mem_cons_self t rest)
      have hbump : bump acc t = acc ++ [(t, 1)] := by
        rw [bump, ht]
        exact setKey_absent 1 ht
      rw [List.foldl_cons, hbump,
        ih (acc ++ [(t, 1)]) (List.Nodup.of_cons hnd) ?_]
      · simp
      · intro u hu
        have hut : u ≠ t := by
          rintro rfl
          exact (List.nodup_cons.mp hnd).1 hu
        rw [lookup_append_single_ne _ _ hut]
        exact hfresh u (List.mem_cons_of_mem t hu)

lemma docFreqsOf_single (d : String) :
    docFreqsOf [d] = (uniqueTokens (tokenize d)).map (fun t => (t, 1)) := by
  rw [docFreqsOf, List.foldl_cons, List.foldl_nil]
  exact foldl_bump_fresh _ [] (uniqueTokens_nodup _) (by simp [List.lookup])

/-- Processing pairs whose keys avoid `t` does not change what `t` maps to in
either the IDF table or the vocabulary. -/
lemma idfVocab_preserve (N : ℕ) :
    ∀ (pairs : List (String × ℕ)) (accI : List (String × ℝ))
      (accV : List (String × ℕ)) (t : String),
      (∀ e ∈ pairs, e.1 ≠ t) →
      ((pairs.foldl (idfVocabStep N) (accI, accV)).1.lookup t = accI.lookup t ∧
       (pairs.foldl (idfVocabStep N) (accI, accV)).2.lookup t = accV.lookup t) := by
  intro pairs
  induction pairs with
  | nil => intro accI accV t _; exact ⟨rfl, rfl⟩
  | cons e rest ih =>
      intro accI accV t h
      have he : e.1 ≠ t := h e (List.mem_cons_self e rest)
      have hrest : ∀ e' ∈ rest, e'.1 ≠ t :=
        fun e' he' => h e' (List.mem_cons_of_mem e he')
      rw [List.foldl_cons]
      have hstep :
          (idfVocabStep N (accI, accV) e).1.lookup t = accI.lookup t ∧
          (idfVocabStep N (accI, accV) e).2.lookup t = accV.lookup t := by
        constructor
        · exact setKey_lookup_ne _ _ (Ne.symm he)
        · rw [idfVocabStep]
          by_cases hs : (accV.lookup e.1).isSome
          · rw [if_pos hs]
          · rw [if_neg hs]
            exact lookup_append_single_ne _ _ (Ne.symm he)
      rcases ih (idfVocabStep N (accI, accV) e).1
          (idfVocabStep N (accI, accV) e).2 t hrest with ⟨h1, h2⟩
      constructor
      · rw [← hstep.1, ← h1]
      · rw [← hstep.2, ← h2]

/-- After the IDF/vocabulary loop runs over a dict with distinct keys, every
key maps to the IDF of its document frequency and is in the vocabulary. -/
lemma idfVocab_lookup (N : ℕ) :
    ∀ (pairs : List (String × ℕ)) (accI : List (String × ℝ))
      (accV : List (String × ℕ)) (t : String) (v : ℕ),
      (pairs.map Prod.fst).Nodup → (t, v) ∈ pairs →
      ((pairs.foldl (idfVocabStep N) (accI, accV)).1.lookup t =
          some (idfValue N v) ∧
       ((pairs.foldl (idfVocabStep N) (accI, accV)).2.lookup t).isSome = true) := by
  intro pairs
  induction pairs with
  | nil => intro accI accV t v _ hmem; simp at hmem
  | cons e rest ih =>
      intro accI accV t v hnd hmem
      rw [List.foldl_cons]
      rcases List.mem_cons.mp hmem with heq | hmem'
      · -- `e = (t, v)`: the step writes the entry, the tail preserves it
        subst heq
        have hrest : ∀ e' ∈ rest, e'.1 ≠ t := by
          intro e' he' hcontra
          have : t ∈ rest.map Prod.fst := hcontra ▸ List.mem_map_of_mem Prod.fst he'
          exact (List.nodup_cons.mp hnd).1 this
        rcases idfVocab_preserve N rest (idfVocabStep N (accI, accV) (t, v)).1
            (idfVocabStep N (accI, accV) (t, v)).2 t hrest with ⟨h1, h2⟩
        constructor
        · rw [h1]
          exact setKey_lookup_self _ _ _
        · rw [h2, idfVocabStep]
          by_cases hs : (accV.lookup t).isSome
          · rw [if_pos hs]; exact hs
          · rw [if_neg hs]
            have : accV.lookup t = none := Option.not_isSome_iff_eq_none.mp hs
            rw [lookup_append_none _ this, lookup_cons_self]
            rfl
      · exact ih _ _ t v (List.nodup_cons.mp hnd).2 hmem'

/-! ## Projections of `buildCorpusStatistics` -/

lemma build_ready (documents : List String) (st : BM25State) :
    (buildCorpusStatistics documents st).ready = true := rfl

lemma build_k1 (documents : List String) (st : BM25State) :
    (buildCorpusStatistics documents st).k1 = st.k1 := rfl

lemma build_b (documents : List String) (st : BM25State) :
    (buildCorpusStatistics documents st).b = st.b := rfl

lemma build_corpusSize (documents : List String) (st : BM25State) :
    (buildCorpusStatistics documents st).corpusSize = documents.length := rfl

lemma build_docFreqs (documents : List String) (st : BM25State) :
    (buildCorpusStatistics documents st).docFreqs = docFreqsOf documents := rfl

lemma build_avgdl (documents : List String) (st : BM25State) :
    (buildCorpusStatistics documents st).avgdl =
      if documents.length > 0 then
        (((documents.map fun d => (tokenize d).length).sum : ℚ) /
          (documents.length : ℚ))
      else 0 := rfl

lemma build_idf (documents : List String) (st : BM25State) :
    (buildCorpusStatistics documents st).idf =
      ((docFreqsOf documents).foldl (idfVocabStep documents.length)
        (st.idf, st.vocabulary)).1 := rfl

lemma build_vocabulary (documents : List String) (st : BM25State) :
    (buildCorpusStatistics documents st).vocabulary =
      ((docFreqsOf documents).foldl (idfVocabStep documents.length)
        (st.idf, st.vocabulary)).2 := rfl

/-! ## Sign of the per-term score -/

/-- With the default tuning constants, a term with negative IDF always
scores negatively (the claims only need the non-degenerate case where the
length-normalisation ratio is non-negative). -/
lemma bm25Score_neg_of_idf_neg (st : BM25State) (idfv : ℝ) (tf dl : ℕ)
    (hk1 : st.k1 = 1.2) (hb : st.b = 0.75) (hidf : idfv < 0) (htf : 1 ≤ tf)
    (hr : 0 ≤ (dl : ℝ) / ((st.avgdl : ℚ) : ℝ)) :
    bm25Score st idfv tf dl < 0 := by
  rw [bm25Score, hk1, hb]
  have htfR : (0 : ℝ) < (tf : ℝ) := by exact_mod_cast htf
  apply div_neg_of_neg_of_pos
  · apply mul_neg_of_neg_of_pos
    · exact mul_neg_of_neg_of_pos hidf htfR
    · norm_num
  · have h2 : (0 : ℝ) ≤ ((1.2 : ℚ) : ℝ) *
        (1 - ((0.75 : ℚ) : ℝ) + ((0.75 : ℚ) : ℝ) * (dl : ℝ) / ((st.avgdl : ℚ) : ℝ)) := by
      have h3 : (0 : ℝ) ≤ ((0.75 : ℚ) : ℝ) * (dl : ℝ) / ((st.avgdl : ℚ) : ℝ) := by
        rw [mul_div_assoc]
        apply mul_nonneg _ hr
        norm_num
      nlinarith
    linarith

/-- `idf = ln((N - df + 0.5)/(df + 0.5))` is negative when `N = df = 1`
(the argument is `1/3 < 1`). -/
lemma idfValue_one_one_neg : idfValue 1 1 < 0 := by
  rw [idfValue]
  apply Real.log_neg <;> norm_num

/-! ## Encoding a document against the corpus consisting of itself alone -/

lemma encode_buildSingle (d : String) :
    encode (buildCorpusStatistics [d] initBM25) d none = [] := by
  have hready : (buildCorpusStatistics [d] initBM25).ready = true := build_ready _ _
  by_cases hts : tokenize d = []
  · simp [encode, hready, hts, uniqueTokens]
  · have hn : (tokenize d).length ≠ 0 := fun h => hts (List.length_eq_zero.mp h)
    have havg : (buildCorpusStatistics [d] initBM25).avgdl = ((tokenize d).length : ℚ) := by
      rw [build_avgdl]; simp
    have havg0 : ¬ (buildCorpusStatistics [d] initBM25).avgdl = 0 := by
      rw [havg]
      exact_mod_cast hn
    have hlook : ∀ t ∈ uniqueTokens (tokenize d),
        (buildCorpusStatistics [d] initBM25).idf.lookup t = some (idfValue 1 1) ∧
        ((buildCorpusStatistics [d] initBM25).vocabulary.lookup t).isSome = true := by
      intro t htm
      have hmem : (t, 1) ∈ docFreqsOf [d] := by
        rw [docFreqsOf_single]
        exact List.mem_map_of_mem _ htm
      have hnd : ((docFreqsOf [d]).map Prod.fst).Nodup := by
        rw [docFreqsOf_single, List.map_map]
        have hcomp : (Prod.fst ∘ fun t : String => (t, (1 : ℕ))) = id := rfl
        rw [hcomp, List.map_id]
        exact uniqueTokens_nodup (tokenize d)
      have h := idfVocab_lookup 1 (docFreqsOf [d]) initBM25.idf initBM25.vocabulary
        t 1 hnd hmem
      rw [build_idf, build_vocabulary]
      simpa using h
    rw [encode, if_neg (by simp [hready]), if_neg (by simp [havg0])]
    apply foldl_fix
    intro acc t htm
    obtain ⟨hidf, hvoc⟩ := hlook t htm
    obtain ⟨i, hi⟩ := Option.isSome_iff_exists.mp hvoc
    simp only [hidf, hi]
    rw [if_neg]
    apply not_lt.mpr
    apply le_of_lt
    apply bm25Score_neg_of_idf_neg _ _ _ _ (build_k1 _ _) (build_b _ _)
      idfValue_one_one_neg
    · exact List.count_pos_iff.mpr ((mem_uniqueTokens _ _).mp htm)
    · rw [havg]
      push_cast
      positivity

/-- Mirror image of `bm25Score_neg_of_idf_neg`: a positive IDF gives a
positive score. -/
lemma bm25Score_pos_of_idf_pos (st : BM25State) (idfv : ℝ) (tf dl : ℕ)
    (hk1 : st.k1 = 1.2) (hb : st.b = 0.75) (hidf : 0 < idfv) (htf : 1 ≤ tf)
    (hr : 0 ≤ (dl : ℝ) / ((st.avgdl : ℚ) : ℝ)) :
    0 < bm25Score st idfv tf dl := by
  rw [bm25Score, hk1, hb]
  have htfR : (0 : ℝ) < (tf : ℝ) := by exact_mod_cast htf
  apply div_pos
  · apply mul_pos (mul_pos hidf htfR)
    norm_num
  · have h2 : (0 : ℝ) ≤ ((1.2 : ℚ) : ℝ) *
        (1 - ((0.75 : ℚ) : ℝ) + ((0.75 : ℚ) : ℝ) * (dl : ℝ) / ((st.avgdl : ℚ) : ℝ)) := by
      have h3 : (0 : ℝ) ≤ ((0.75 : ℚ) : ℝ) * (dl : ℝ) / ((st.avgdl : ℚ) : ℝ) := by
        rw [mul_div_assoc]
        apply mul_nonneg _ hr
        norm_num
      nlinarith
    linarith

lemma idfValue_three_one_pos : 0 < idfValue 3 1 := by
  rw [idfValue]
  apply Real.log_pos
  norm_num

lemma tok_xa : tokenize "x a" = ["x", "a"] := by decide
lemma tok_a : tokenize "a" = ["a"] := by decide
lemma tok_b : tokenize "b" = ["b"] := by decide
lemma tok_x : tokenize "x" = ["x"] := by decide
lemma tok_empty : tokenize "" = [] := by decide
lemma tok_cat : tokenize "cat" = ["cat"] := by decide

lemma corpusA_docFreqs : corpusA.docFreqs = [("x", 1), ("a", 3)] := rfl

lemma corpusA_idf_x : corpusA.idf.lookup "x" = some (idfValue 3 1) := rfl

lemma corpusA_voc_x : corpusA.vocabulary.lookup "x" = some 0 := rfl

lemma corpusA_avgdl : corpusA.avgdl = 4 / 3 := by
  rw [corpusA, build_avgdl]
  simp [tok_xa, tok_a]

lemma corpusAB_docFreqs : corpusAB.docFreqs = [("b", 1)] := rfl

lemma corpusAB_idf_x : corpusAB.idf.lookup "x" = some (idfValue 3 1) := rfl

lemma corpusAB_voc_x : corpusAB.vocabulary.lookup "x" = some 0 := rfl

lemma corpusAB_avgdl : corpusAB.avgdl = 1 := by
  rw [corpusAB, build_avgdl]
  simp [tok_b]

lemma corpusAE_avgdl : corpusAE.avgdl = 0 := by
  rw [corpusAE, build_avgdl]
  simp [tok_empty]

/-! ## Evaluating `encode` on a one-token query -/

lemma uniqueTokens_singleton (t : String) : uniqueTokens [t] = [t] := rfl

lemma encode_single_query (st : BM25State) (q t : String) (v : ℝ) (i : ℕ)
    (hq : tokenize q = [t]) (hready : st.ready = true) (havg0 : ¬ st.avgdl = 0)
    (hidf : st.idf.lookup t = some v) (hvoc : st.vocabulary.lookup t = some i)
    (hpos : 0 < bm25Score st v 1 1) :
    encode st q none = [(i, bm25Score st v 1 1)] := by
  rw [encode]
  simp only [hready, Bool.true_eq_false, if_false, hq]
  rw [if_neg]
  · simp only [uniqueTokens_singleton, List.foldl_cons, List.foldl_nil,
      hidf, hvoc, Option.getD, List.count, List.length]
    norm_num
    exact hpos
  · simp [havg0]

lemma bm25Score_corpusA_pos : 0 < bm25Score corpusA (idfValue 3 1) 1 1 :=
  bm25Score_pos_of_idf_pos _ _ _ _ rfl rfl idfValue_three_one_pos (le_refl 1)
    (by rw [corpusA_avgdl]; norm_num)

lemma encode_corpusA_x :
    encode corpusA "x" none = [(0, bm25Score corpusA (idfValue 3 1) 1 1)] :=
  encode_single_query _ _ _ _ _ tok_x rfl
    (by rw [corpusA_avgdl]; norm_num) corpusA_idf_x corpusA_voc_x
    bm25Score_corpusA_pos

lemma bm25Score_corpusAB_pos : 0 < bm25Score corpusAB (idfValue 3 1) 1 1 :=
  bm25Score_pos_of_idf_pos _ _ _ _ rfl rfl idfValue_three_one_pos (le_refl 1)
    (by rw [corpusAB_avgdl]; norm_num)

lemma encode_corpusAB_x :
    encode corpusAB "x" none = [(0, bm25Score corpusAB (idfValue 3 1) 1 1)] :=
  encode_single_query _ _ _ _ _ tok_x rfl
    (by rw [corpusAB_avgdl]; norm_num) corpusAB_idf_x corpusAB_voc_x
    bm25Score_corpusAB_pos

/-- On `corpusAE` the average document length is `0` while `"x"` is still in
the (stale) IDF table and vocabulary, so `encode` hits the
`ZeroDivisionError` and its `except` handler returns the empty dict. -/
lemma encode_corpusAE_x : encode corpusAE "x" none = [] := by
  rw [encode]
  simp only [show corpusAE.ready = true from rfl, Bool.true_eq_false, if_false,
    tok_x]
  rw [if_pos]
  exact ⟨corpusAE_avgdl, rfl⟩

/-! ## Case analyses of the orchestrator's helpers -/

lemma searchSimilar_error (env : Env) (h : env.denseQueryResult = Except.error ()) :
    searchSimilar env = [] := by
  rw [searchSimilar, h]

lemma qdrantHybrid_cases (env : Env) (θ : ℝ) :
    (∃ pts, env.hybridQueryResult = Except.ok pts ∧ qdrantHybridSearch env θ =
        ({ results := pts.filter (fun p => θ ≤ p.score),
           totalFound := (pts.filter (fun p => θ ≤ p.score)).length,
           searchType := "hybrid" }, [StoreCall.fusedQuery])) ∨
    (env.hybridQueryResult = Except.error () ∧ qdrantHybridSearch env θ =
        ((denseOnlySearch env).1, StoreCall.fusedQuery :: (denseOnlySearch env).2)) := by
  cases h : env.hybridQueryResult with
  | error e => cases e; exact Or.inr ⟨rfl, by rw [qdrantHybridSearch, h]⟩
  | ok pts => exact Or.inl ⟨pts, rfl, by rw [qdrantHybridSearch, h]⟩

lemma initialize_no_fusedQuery (env : Env) (vs : VSState) :
    StoreCall.fusedQuery ∉ (initializeBM25Corpus env vs).2 := by
  rw [initializeBM25Corpus]
  by_cases h1 : vs.corpusInitialized
  · simp [h1]
  · by_cases h2 : fetchCorpusDocuments env ≠ [] <;> simp [h1, h2]

/-- Every outcome of `hybrid_search` is the error outcome (and then the
dense embedding failed), a dense-only outcome carrying whatever
`search_similar` returned, or a hybrid outcome made of a successful fused
store reply. -/
lemma hybridSearch_outcome_cases (env : Env) (vs : VSState) (q : String)
    (l : ℕ) (θ : ℝ) :
    ((env.embedResult = none ∨ env.embedResult = some []) ∧
      (hybridSearch env vs q l θ).1 = errorOutcome) ∨
    (hybridSearch env vs q l θ).1 =
      { results := searchSimilar env, totalFound := (searchSimilar env).length,
        searchType := "dense_only" } ∨
    (∃ pts, env.hybridQueryResult = Except.ok pts ∧ (hybridSearch env vs q l θ).1 =
        { results := pts.filter (fun p => θ ≤ p.score),
          totalFound := (pts.filter (fun p => θ ≤ p.score)).length,
          searchType := "hybrid" }) := by
  rw [hybridSearch]
  cases hemb : env.embedResult with
  | none => exact Or.inl ⟨Or.inl rfl, rfl⟩
  | some dv =>
      simp only []
      by_cases hdv : dv = []
      · rw [if_pos hdv]
        exact Or.inl ⟨Or.inr (by rw [hdv]), rfl⟩
      · rw [if_neg hdv]
        by_cases hc : (initializeBM25Corpus env vs).1.corpusInitialized = true ∧
            (initializeBM25Corpus env vs).1.bm25.ready = true
        · rw [if_pos hc]
          by_cases hsv : encode (initializeBM25Corpus env vs).1.bm25 q none ≠ []
          · rw [if_pos hsv]
            rcases qdrantHybrid_cases env θ with ⟨pts, hp, h⟩ | ⟨_, h⟩
            · exact Or.inr (Or.inr ⟨pts, hp, by rw [h]⟩)
            · rw [h]
              exact Or.inr (Or.inl rfl)
          · rw [if_neg hsv]
            exact Or.inr (Or.inl rfl)
        · rw [if_neg hc]
          exact Or.inr (Or.inl rfl)

lemma dense_branch_props (env : Env) (vs : VSState) :
    StoreCall.fusedQuery ∉ (initializeBM25Corpus env vs).2 ++ (denseOnlySearch env).2 ∧
    StoreCall.denseQuery ∈ (initializeBM25Corpus env vs).2 ++ (denseOnlySearch env).2 ∧
    (denseOnlySearch env).1.searchType = "dense_only" := by
  refine ⟨?_, List.mem_append_right _ (List.mem_singleton.mpr rfl), rfl⟩
  intro hmem
  rcases List.mem_append.mp hmem with h | h
  · exact initialize_no_fusedQuery env vs h
  · rw [show (denseOnlySearch env).2 = [StoreCall.denseQuery] from rfl] at h
    simp at h

/-! ## The claims -/

/-- C4: for every text (the empty string included) and every optional
document length, calling `encode` on an encoder whose corpus statistics are
not ready returns the empty sparse vector; as a total function of the state
it cannot raise. -/
theorem encode_notReady_empty (st : BM25State) (text : String)
    (docLength : Option ℕ) (h : st.ready = false) :
    encode st text docLength = [] := by
  rw [encode, if_pos h]

theorem encode_notReady_empty_witness :
    initBM25.ready = false ∧ encode initBM25 "" none = [] :=
  ⟨rfl, encode_notReady_empty initBM25 "" none rfl⟩

/-- C5 counterexample: `build_corpus_statistics([])` terminates with corpus
size 0 but leaves the readiness flag `true`, not `false` as the claim
states — `self.corpus_stats_ready = True` runs unconditionally. -/
theorem buildStatistics_empty_ready_true :
    (buildCorpusStatistics [] initBM25).ready = true ∧
    (buildCorpusStatistics [] initBM25).corpusSize = 0 :=
  ⟨rfl, rfl⟩

/-- C5 (amended): building on an empty document list terminates (the body is
total: the average-length division is guarded), leaves corpus size 0,
average length 0, an empty document-frequency table, and the IDF table and
vocabulary untouched — but sets `ready` to `true`, not `false`. -/
theorem buildStatistics_empty_state (st : BM25State) :
    (buildCorpusStatistics [] st).ready = true ∧
    (buildCorpusStatistics [] st).corpusSize = 0 ∧
    (buildCorpusStatistics [] st).avgdl = 0 ∧
    (buildCorpusStatistics [] st).docFreqs = [] ∧
    (buildCorpusStatistics [] st).idf = st.idf ∧
    (buildCorpusStatistics [] st).vocabulary = st.vocabulary :=
  ⟨rfl, rfl, rfl, rfl, rfl, rfl⟩

/-- C10: on every path — hybrid, dense-only and both error branches — the
outcome returned by `hybrid_search` satisfies
`total_found == len(results)`. -/
theorem searchOutcome_totalFound_length (env : Env) (vs : VSState)
    (q : String) (l : ℕ) (θ : ℝ) :
    (hybridSearch env vs q l θ).1.totalFound =
      (hybridSearch env vs q l θ).1.results.length := by
  rcases hybridSearch_outcome_cases env vs q l θ with ⟨_, h⟩ | h | ⟨pts, _, h⟩ <;>
    (rw [h]; try rfl)

/-- C6 counterexample: `d = "cat"` tokenizes to the single term `"cat"`, yet
building on the one-document corpus `["cat"]` and encoding `"cat"` yields
the EMPTY sparse vector — with `N = df = 1` the IDF is `ln(1/3) < 0`, the
score is negative, and `encode` keeps only strictly positive scores — so no
term of `d` appears with a positive score. -/
theorem singleDoc_encode_cat_empty :
    tokenize "cat" = ["cat"] ∧
    encode (buildCorpusStatistics ["cat"] initBM25) "cat" none = [] :=
  ⟨tok_cat, encode_buildSingle "cat"⟩

/-- C6 (amended): for every document `d`, building statistics on the
one-document corpus `[d]` and then encoding `d` yields the empty sparse
vector (every term of `d` has `df = N = 1`, IDF `ln(1/3) < 0`, hence a
non-positive score, and such terms are excluded). -/
theorem singleDoc_encode_empty (d : String) :
    encode (buildCorpusStatistics [d] initBM25) d none = [] :=
  encode_buildSingle d

/-- C3: failing input for the full-rebuild claim. After building on corpus
A = `["x a", "a", "a"]` and rebuilding on B = `["b"]`, the rebuilt state's
`doc_freqs` no longer mention `"x"`, yet encoding `"x"` still yields a
strictly positive entry scored with A's stale IDF — the source replaces
`self.doc_freqs` but never clears `self.idf` or `self.vocabulary`. -/
theorem staleIdf_term_still_scores :
    corpusAB.docFreqs = [("b", 1)] ∧
    corpusAB.idf.lookup "x" = some (idfValue 3 1) ∧
    ∃ s, encode corpusAB "x" none = [(0, s)] ∧ 0 < s :=
  ⟨corpusAB_docFreqs, corpusAB_idf_x,
   bm25Score corpusAB (idfValue 3 1) 1 1, encode_corpusAB_x,
   bm25Score_corpusAB_pos⟩

/-- C7: failing input for the `average_length == 0` edge case. `corpusAE` is
ready with `avgdl = 0` while `"x"` is still in the (stale) vocabulary with
the positive IDF `ln(5/3)`; `encode "x"` hits the unguarded
`doc_len / self.avgdl` division, whose `ZeroDivisionError` is swallowed by
the `except`, returning the empty vector — instead of scoring `"x"` as if
`doc_len / average_length` were fixed to 1 (which would yield a positive
score). -/
theorem avgdlZero_encode_zeroDivision :
    corpusAE.ready = true ∧ corpusAE.avgdl = 0 ∧
    corpusAE.idf.lookup "x" = some (idfValue 3 1) ∧
    (corpusAE.vocabulary.lookup "x").isSome = true ∧
    0 < idfValue 3 1 ∧
    encode corpusAE "x" none = [] :=
  ⟨rfl, corpusAE_avgdl, rfl, rfl, idfValue_three_one_pos, encode_corpusAE_x⟩

/-- C8: failing input for the corpus-snapshot claim. On a store holding 1001
points, each with `content` in its payload, `_fetch_corpus_documents` reads
a single scroll page of 1000 and ignores `next_page_offset`: the 1001st
point's content `"b"` is stored but missing from the corpus handed to
`build_corpus_statistics`. -/
theorem fetchCorpus_drops_beyond_page :
    bigStore.length = 1001 ∧
    (⟨1000, some "b"⟩ : StorePoint) ∈ bigStore ∧
    "b" ∉ fetchCorpusDocuments envBig := by
  have htake : bigStore.take 1000 =
      List.replicate 1000 (⟨0, some "a"⟩ : StorePoint) := by
    rw [bigStore]
    exact List.take_left' (List.length_replicate _ _)
  refine ⟨?_, ?_, ?_⟩
  · rw [bigStore, List.length_append, List.length_replicate]
    rfl
  · rw [bigStore]
    exact List.mem_append_right _ (List.mem_singleton.mpr rfl)
  intro hmem
  rw [show fetchCorpusDocuments envBig =
      (bigStore.take 1000).filterMap (fun p => p.content) from rfl, htake] at hmem
  rcases List.mem_filterMap.mp hmem with ⟨p, hp, hc⟩
  rw [List.eq_of_mem_replicate hp] at hc
  exact absurd hc (by decide)

/-- C9 counterexample: in the interleaving check₁ · check₂ · build₁ · build₂
both callers pass the unsynchronized `_corpus_initialized` check before
either sets it, and the fetch-then-build executes twice — not exactly once
as the claim states.  (Both callers do observe the flag set afterwards.) -/
theorem initRace_double_build :
    runInitSchedule true [true, false, true, false] (⟨false, 0⟩, 0, 0) =
      (⟨true, 2⟩, 2, 2) ∧ (2 : ℕ) ≠ 1 :=
  ⟨rfl, by decide⟩

/-- C9 (amended): the boolean guard does make sequential double
initialization idempotent — if one caller completes before the other starts,
exactly one fetch-then-build executes, the second caller skips, and both
observe the flag set; only overlapping callers can double-build. -/
theorem initSequential_single_build :
    runInitSchedule true [true, true, false, false] (⟨false, 0⟩, 0, 0) =
      (⟨true, 1⟩, 2, 2) := rfl

/-- C1 counterexample: with the embedding succeeding, a ready corpus
(`corpusA`) and a non-empty sparse vector for `"x"`, a raising fused store
query does NOT produce the error outcome: `_qdrant_hybrid_search`'s `except`
falls back to `_dense_only_search`, which succeeds, so the fused query was
issued on the executed path and raised, yet the outcome is a non-empty
`dense_only` result — not `search_type = "error"` with an empty list. -/
theorem hybridStoreRaise_fallsBackToDense :
    envHR.hybridQueryResult = Except.error () ∧
    (hybridSearch envHR vsA "x" 5 0).2.2 =
      [StoreCall.fusedQuery, StoreCall.denseQuery] ∧
    (hybridSearch envHR vsA "x" 5 0).1.searchType = "dense_only" ∧
    (hybridSearch envHR vsA "x" 5 0).1.results = [⟨1, 1⟩] := by
  have hrun : hybridSearch envHR vsA "x" 5 0 =
      ({ results := [⟨1, 1⟩], totalFound := 1, searchType := "dense_only" },
       vsA, [StoreCall.fusedQuery, StoreCall.denseQuery]) := by
    rw [hybridSearch, show envHR.embedResult = some [(1 : ℝ)] from rfl]
    simp only []
    rw [if_neg (by simp : ¬([(1 : ℝ)] = []))]
    have hini : initializeBM25Corpus envHR vsA = (vsA, []) := by
      rw [initializeBM25Corpus,
        if_pos (show vsA.corpusInitialized = true from rfl)]
    rw [hini]
    rw [if_pos (⟨rfl, rfl⟩ : (vsA, ([] : List StoreCall)).1.corpusInitialized = true ∧
      (vsA, ([] : List StoreCall)).1.bm25.ready = true)]
    rw [show (vsA, ([] : List StoreCall)).1.bm25 = corpusA from rfl, encode_corpusA_x]
    rw [if_pos (by simp :
      ¬([((0 : ℕ), bm25Score corpusA (idfValue 3 1) 1 1)] = []))]
    rw [qdrantHybridSearch, show envHR.hybridQueryResult = Except.error () from rfl]
    rfl
  rw [hrun]
  exact ⟨rfl, rfl, rfl, rfl⟩

/-- C1 (amended): the error policy actually implemented by `hybrid_search`:
a failed (or empty) dense embedding yields the error outcome immediately,
and it is the only source of the error outcome — store exceptions never
produce it.  A raising fused store query is converted into a dense-only
fallback (tagged `"dense_only"`), and a raising dense store query is
swallowed inside `search_similar`, which returns `[]`, so the outcome is
then either a successful hybrid outcome or a dense-only outcome with an
empty result list.  Error outcomes always carry an empty result list, and —
the search being a total function of the modelled environment — no
exception propagates out of the orchestrator. -/
theorem hybridSearch_error_policy (env : Env) (vs : VSState) (q : String)
    (l : ℕ) (θ : ℝ) :
    ((env.embedResult = none ∨ env.embedResult = some []) →
      (hybridSearch env vs q l θ).1 = errorOutcome) ∧
    ((hybridSearch env vs q l θ).1.searchType = "error" →
      (env.embedResult = none ∨ env.embedResult = some []) ∧
      (hybridSearch env vs q l θ).1.results = []) ∧
    (∀ dv, env.embedResult = some dv → dv ≠ [] →
      env.denseQueryResult = Except.error () →
      (hybridSearch env vs q l θ).1.searchType = "hybrid" ∨
      (hybridSearch env vs q l θ).1 =
        { results := [], totalFound := 0, searchType := "dense_only" }) ∧
    (∀ dv, env.embedResult = some dv → dv ≠ [] →
      env.hybridQueryResult = Except.error () →
      (hybridSearch env vs q l θ).1.searchType = "dense_only") := by
  refine ⟨?_, ?_, ?_, ?_⟩
  · rintro (h | h)
    · rw [hybridSearch, h]
    · rw [hybridSearch, h]
      simp only []
      rw [if_pos trivial]
  · intro he
    rcases hybridSearch_outcome_cases env vs q l θ with ⟨hemb, h⟩ | h | ⟨pts, hp, h⟩
    · exact ⟨hemb, by rw [h]; rfl⟩
    · rw [h] at he
      exact absurd (show "dense_only" = "error" from he) (by decide)
    · rw [h] at he
      exact absurd (show "hybrid" = "error" from he) (by decide)
  · intro dv hemb hdv hd
    rcases hybridSearch_outcome_cases env vs q l θ with ⟨hembF, h⟩ | h | ⟨pts, hp, h⟩
    · rcases hembF with h2 | h2
      · rw [hemb] at h2
        exact absurd h2 (by simp)
      · rw [hemb] at h2
        exact absurd (Option.some.inj h2) hdv
    · right
      rw [h, searchSimilar_error env hd]
      rfl
    · left
      rw [h]
  · intro dv hemb hdv hh
    rcases hybridSearch_outcome_cases env vs q l θ with ⟨hembF, h⟩ | h | ⟨pts, hp, h⟩
    · rcases hembF with h2 | h2
      · rw [hemb] at h2
        exact absurd h2 (by simp)
      · rw [hemb] at h2
        exact absurd (Option.some.inj h2) hdv
    · rw [h]
    · rw [hh] at hp
      exact absurd hp (by simp)

theorem hybridSearch_error_policy_witness :
    (hybridSearch ⟨none, none, Except.error (), Except.error ()⟩ initVS "" 0 0).1 =
      errorOutcome ∧
    ((hybridSearch envBFail initVS "q" 5 0).1.searchType = "hybrid" ∨
      (hybridSearch envBFail initVS "q" 5 0).1 =
        { results := [], totalFound := 0, searchType := "dense_only" }) ∧
    (hybridSearch envHR vsA "x" 5 0).1.searchType = "dense_only" :=
  ⟨(hybridSearch_error_policy ⟨none, none, Except.error (), Except.error ()⟩
      initVS "" 0 0).1 (Or.inl rfl),
   (hybridSearch_error_policy envBFail initVS "q" 5 0).2.2.1 [1] rfl (by simp) rfl,
   (hybridSearch_error_policy envHR vsA "x" 5 0).2.2.2 [1] rfl (by simp) rfl⟩

/-- C2: whenever the dense embedding succeeds but the sparse path is
unavailable — the post-initialization state is not ready, or encoding the
query yields an empty sparse vector — `hybrid_search` never issues the
fused hybrid query, it issues the dense-only nearest-neighbor query, and
the outcome is tagged `search_type = "dense_only"`.  The tag holds even if
the underlying dense store call failed, because `search_similar` swallows
that failure and returns an empty result list. -/
theorem sparseUnavailable_denseOnlyPath (env : Env) (vs : VSState) (q : String)
    (l : ℕ) (θ : ℝ) (dv : List ℝ)
    (hemb : env.embedResult = some dv) (hdv : dv ≠ [])
    (hsp : ¬((initializeBM25Corpus env vs).1.corpusInitialized = true ∧
            (initializeBM25Corpus env vs).1.bm25.ready = true) ∨
          encode (initializeBM25Corpus env vs).1.bm25 q none = []) :
    StoreCall.fusedQuery ∉ (hybridSearch env vs q l θ).2.2 ∧
    StoreCall.denseQuery ∈ (hybridSearch env vs q l θ).2.2 ∧
    (hybridSearch env vs q l θ).1.searchType = "dense_only" := by
  rw [hybridSearch, hemb]
  simp only []
  rw [if_neg hdv]
  by_cases hc : (initializeBM25Corpus env vs).1.corpusInitialized = true ∧
      (initializeBM25Corpus env vs).1.bm25.ready = true
  · have hsv : encode (initializeBM25Corpus env vs).1.bm25 q none = [] :=
      hsp.resolve_left (not_not_intro hc)
    rw [if_pos hc, if_neg (by simp [hsv])]
    exact dense_branch_props env vs
  · rw [if_neg hc]
    exact dense_branch_props env vs

theorem sparseUnavailable_denseOnlyPath_witness :
    StoreCall.fusedQuery ∉ (hybridSearch envB initVS "q" 5 0).2.2 ∧
    (hybridSearch envB initVS "q" 5 0).1.searchType = "dense_only" := by
  have h := sparseUnavailable_denseOnlyPath envB initVS "q" 5 0 [1] rfl
    (by simp)
    (Or.inl (fun hc => by
      rw [show (initializeBM25Corpus envB initVS).1.corpusInitialized = false
        from rfl] at hc
      exact Bool.false_ne_true hc.1))
  exact ⟨h.1, h.2.2⟩
